import Mathlib

/-!
Shallow embedding of the KiCAD MCP server's sequential command broker
(class `KiCADMcpServer` in the TypeScript source: `callKicadScript`,
`handlePythonResponse`, `tryParseResponse`, `processNextRequest`, the
`exit` listener installed in `start`, and `stop`).

The broker state is the set of mutable fields of the class, plus
observables (the list of requests written to the child's stdin, the list
of promise settlements in the order they happened, a kill counter).
JavaScript's event loop is modelled by a step function over events:
a `submit` call, a stdout data chunk, a timer firing, a scheduled
`processNextRequest` macrotask running, the child's `exit` event, and
`stop`.  `JSON.parse` is external library code, so it is a parameter
`parse : String → Option JVal` of every operation that uses it.
-/

/-- JSON-like values: the results produced by `JSON.parse` and the
`params` payload of a request.  The broker never inspects their
structure, so a small value type suffices. -/
inductive JVal where
  | null
  | bool (b : Bool)
  | num (n : Int)
  | str (s : String)
deriving DecidableEq

/-- Errors with which the broker can reject a caller's promise.
`processCrash` is listed in the spec's error taxonomy; it is included so
that its absence from every code path can be stated. -/
inductive Err where
  | processNotRunning
  | commandTimeout (command : String) (timeoutMs : Nat)
  | writeError
  | processCrash
deriving DecidableEq

/-- A settled promise: resolved with a parsed value or rejected with an
error. -/
inductive Outcome where
  | resolved (v : JVal)
  | rejected (e : Err)
deriving DecidableEq

/-- A queued command request, as built by `callKicadScript`:
`\x7bcommand, params, timeout\x7d` plus the identity of the caller's
promise. -/
structure Request where
  command : String
  params : JVal
  timeout : Nat
  callId : Nat
deriving DecidableEq

/-- An armed `setTimeout` timer.  The closure created in
`processNextRequest` captures the request's command, the timeout
duration and the promise to reject, so those are recorded here.
A timer in the list is armed; `clearTimeout` or firing removes it. -/
structure Timer where
  id : Nat
  callId : Nat
  command : String
  duration : Nat
deriving DecidableEq

/-- The `currentRequestHandler` field: resolve/reject of the in-flight
call (identified by `callId`) and its `timeoutHandle`. -/
structure Handler where
  callId : Nat
  timerId : Nat
deriving DecidableEq

/-- The mutable state of `KiCADMcpServer`, together with observables.
`pythonProcess` records whether the child process handle is non-null;
`writes` the requests written to the child's stdin, in order;
`settled` the promise settlements, in the order they happened;
`drainsScheduled` the number of pending `setTimeout(processNextRequest, 0)`
macrotasks; `kills` how many times the child was killed. -/
structure BrokerState where
  pythonProcess : Bool
  requestQueue : List Request
  processingRequest : Bool
  responseBuffer : String
  currentRequestHandler : Option Handler
  timers : List Timer
  writes : List Request
  settled : List (Nat × Outcome)
  nextCallId : Nat
  nextTimerId : Nat
  drainsScheduled : Nat
  kills : Nat
deriving DecidableEq

/-- Ids of the promises already settled, in settlement order. -/
def settledIds (s : BrokerState) : List Nat :=
  s.settled.map Prod.fst

/-- Settle a promise: record the outcome unless the promise was already
settled (a second resolve/reject of a JavaScript promise is a no-op). -/
def settle (s : BrokerState) (id : Nat) (o : Outcome) : BrokerState :=
  if id ∈ settledIds s then s
  else { s with settled := s.settled ++ [(id, o)] }

/-- The fixed set of long-running commands of `callKicadScript`. -/
def longRunningCommands : List String :=
  ["run_drc", "export_gerber", "export_pdf", "export_3d"]

/-- The timeout policy of `callKicadScript`: 600000 ms for a command in
`longRunningCommands`, otherwise the default 30000 ms. -/
def commandTimeout (command : String) : Nat :=
  if command ∈ longRunningCommands then 600000 else 30000

/-- Where the body of `processNextRequest`'s `try` block can throw:
nowhere, at `JSON.stringify(request)`, or at the stdin write. -/
inductive DrainErr where
  | ok
  | atStringify
  | atWrite
deriving DecidableEq

/-- JavaScript's `String.prototype.trim`: strip leading and trailing
whitespace.  (Defined by structural recursion over the character data so
that concrete instances compute.) -/
def jsTrim (s : String) : String :=
  ⟨((s.data.dropWhile Char.isWhitespace).reverse.dropWhile Char.isWhitespace).reverse⟩

/-- Look up an armed timer by id. -/
def findTimer (s : BrokerState) (tid : Nat) : Option Timer :=
  s.timers.find? (fun t => t.id == tid)

/-- `clearTimeout`: disarm the timer with the given id. -/
def clearTimer (s : BrokerState) (tid : Nat) : BrokerState :=
  { s with timers := s.timers.filter (fun t => t.id != tid) }

/-- `processNextRequest`: if the queue is nonempty and no request is in
flight, shift the head, mark the broker busy, clear the response buffer,
arm the per-call timer, store the current request handler and write the
serialized request to the child's stdin.  The write uses optional
chaining (`pythonProcess?.stdin?.write`), so with no child handle it
silently does nothing.  If the `try` body throws, the `catch` block
resets `processingRequest`, nulls the handler, schedules another drain
and rejects the promise — without disarming the timer it may have armed. -/
def processNextRequest (err : DrainErr) (s : BrokerState) : BrokerState :=
  match s.requestQueue, s.processingRequest with
  | [], _ => s
  | _ :: _, true => s
  | req :: rest, false =>
    let s1 := { s with requestQueue := rest, processingRequest := true }
    match err with
    | DrainErr.atStringify =>
      let s2 := { s1 with processingRequest := false, currentRequestHandler := none,
                          drainsScheduled := s1.drainsScheduled + 1 }
      settle s2 req.callId (Outcome.rejected Err.writeError)
    | DrainErr.ok =>
      let dur := if req.timeout = 0 then 30000 else req.timeout
      let s2 := { s1 with responseBuffer := "",
                          timers := s1.timers ++ [({ id := s1.nextTimerId, callId := req.callId, command := req.command, duration := dur } : Timer)],
                          nextTimerId := s1.nextTimerId + 1,
                          currentRequestHandler := some ⟨req.callId, s1.nextTimerId⟩ }
      if s2.pythonProcess then { s2 with writes := s2.writes ++ [req] } else s2
    | DrainErr.atWrite =>
      let dur := if req.timeout = 0 then 30000 else req.timeout
      let s2 := { s1 with responseBuffer := "",
                          timers := s1.timers ++ [({ id := s1.nextTimerId, callId := req.callId, command := req.command, duration := dur } : Timer)],
                          nextTimerId := s1.nextTimerId + 1,
                          currentRequestHandler := some ⟨req.callId, s1.nextTimerId⟩ }
      let s3 := { s2 with processingRequest := false, currentRequestHandler := none,
                          drainsScheduled := s2.drainsScheduled + 1 }
      settle s3 req.callId (Outcome.rejected Err.writeError)

/-- `callKicadScript`: allocate the caller's promise; if no child
process handle exists, reject it immediately and return; otherwise look
up the timeout policy, append the request to the queue, and if the
broker is not busy run `processNextRequest` synchronously. -/
def callKicadScript (command : String) (params : JVal) (err : DrainErr)
    (s : BrokerState) : BrokerState :=
  let id := s.nextCallId
  let s0 := { s with nextCallId := id + 1 }
  if s0.pythonProcess = false then
    settle s0 id (Outcome.rejected Err.processNotRunning)
  else
    let req : Request := ⟨command, params, commandTimeout command, id⟩
    let s1 := { s0 with requestQueue := s0.requestQueue ++ [req] }
    if s1.processingRequest then s1 else processNextRequest err s1

/-- `tryParseResponse`: with no current request handler, discard the
buffer when it holds non-whitespace and return.  Otherwise attempt to
parse the whole accumulated buffer; on failure keep collecting; on
success clear the timeout, clear the buffer, null the handler, reset the
busy flag, resolve the promise and schedule the next drain. -/
def tryParseResponse (parse : String → Option JVal) (s : BrokerState) : BrokerState :=
  match s.currentRequestHandler with
  | none =>
    if jsTrim s.responseBuffer ≠ "" then { s with responseBuffer := "" } else s
  | some h =>
    match parse s.responseBuffer with
    | none => s
    | some result =>
      let s1 := clearTimer s h.timerId
      let s2 := { s1 with responseBuffer := "", currentRequestHandler := none,
                          processingRequest := false }
      let s3 := settle s2 h.callId (Outcome.resolved result)
      { s3 with drainsScheduled := s3.drainsScheduled + 1 }

/-- `handlePythonResponse`: append the stdout chunk to the response
buffer, then try to parse. -/
def handlePythonResponse (parse : String → Option JVal) (chunk : String)
    (s : BrokerState) : BrokerState :=
  tryParseResponse parse { s with responseBuffer := s.responseBuffer ++ chunk }

/-- The `setTimeout` callback armed in `processNextRequest`: when the
timer with id `tid` is still armed and fires, clear the buffer, null the
handler, reset the busy flag, reject the captured promise with the
command-timeout error, and schedule the next drain. -/
def fireTimer (tid : Nat) (s : BrokerState) : BrokerState :=
  match findTimer s tid with
  | none => s
  | some t =>
    let s1 := { s with timers := s.timers.filter (fun u => u.id != tid),
                       responseBuffer := "", currentRequestHandler := none,
                       processingRequest := false,
                       drainsScheduled := s.drainsScheduled + 1 }
    settle s1 t.callId (Outcome.rejected (Err.commandTimeout t.command t.duration))

/-- The `exit` listener installed in `start`: it only logs and nulls the
process handle. -/
def onExit (s : BrokerState) : BrokerState :=
  { s with pythonProcess := false }

/-- `stop`: if a child process handle exists, kill the child and null
the handle; nothing else. -/
def stopServer (s : BrokerState) : BrokerState :=
  if s.pythonProcess then
    { s with pythonProcess := false, kills := s.kills + 1 }
  else s

/-- The events the broker reacts to. -/
inductive Event where
  | submit (command : String) (params : JVal) (err : DrainErr)
  | chunk (data : String)
  | fire (tid : Nat)
  | runDrain (err : DrainErr)
  | exitEvt
  | stopEvt
deriving DecidableEq

/-- One event-loop step.  A `runDrain` macrotask only runs when one was
scheduled. -/
def step (parse : String → Option JVal) (e : Event) (s : BrokerState) : BrokerState :=
  match e with
  | Event.submit c p err => callKicadScript c p err s
  | Event.chunk d => handlePythonResponse parse d s
  | Event.fire tid => fireTimer tid s
  | Event.runDrain err =>
    match s.drainsScheduled with
    | 0 => s
    | n + 1 => processNextRequest err { s with drainsScheduled := n }
  | Event.exitEvt => onExit s
  | Event.stopEvt => stopServer s

/-- Run a list of events from a state. -/
def run (parse : String → Option JVal) (es : List Event) (s : BrokerState) : BrokerState :=
  es.foldl (fun s e => step parse e s) s

/-- The state right after `start` succeeded (`alive = true`) or with no
child process (`alive = false`): empty queue, idle, empty buffer, no
handler, no timers, nothing settled. -/
def initState (alive : Bool) : BrokerState :=
  { pythonProcess := alive, requestQueue := [], processingRequest := false,
    responseBuffer := "", currentRequestHandler := none, timers := [],
    writes := [], settled := [], nextCallId := 0, nextTimerId := 0,
    drainsScheduled := 0, kills := 0 }

/-- Call id of the in-flight request, as a list (empty or a singleton). -/
def handlerIds (s : BrokerState) : List Nat :=
  match s.currentRequestHandler with
  | none => []
  | some h => [h.callId]

/-- Call ids still queued, in queue order. -/
def queueIds (s : BrokerState) : List Nat :=
  s.requestQueue.map Request.callId

/-- Events that can occur while the child stays alive and healthy:
submits and drains that do not throw, and stdout chunks.  No timer
fires, no exit, no explicit stop. -/
def niceEvent : Event → Bool
  | Event.submit _ _ err => err == DrainErr.ok
  | Event.chunk _ => true
  | Event.runDrain err => err == DrainErr.ok
  | Event.fire _ => false
  | Event.exitEvt => false
  | Event.stopEvt => false

/-- Invariant of nice traces: the child is alive, the busy flag tracks
the handler, settlements followed by the in-flight id followed by the
queue list exactly the call ids in submission order, and every
settlement is a resolution. -/
def NiceInv (s : BrokerState) : Prop :=
  s.pythonProcess = true ∧
  (s.processingRequest = true ↔ s.currentRequestHandler.isSome) ∧
  settledIds s ++ handlerIds s ++ queueIds s = List.range s.nextCallId ∧
  ∀ p ∈ s.settled, ∃ v, p.2 = Outcome.resolved v

/-- Concatenation of a list of chunks, mirroring repeated buffer
appends. -/
def strJoin : List String → String
  | [] => ""
  | c :: cs => c ++ strJoin cs

/-- A concrete parse function for instantiating the abstract
`JSON.parse` parameter: exactly the string "DONE" is a complete
document. -/
def parseDemo : String → Option JVal :=
  fun s => if s = "DONE" then some (JVal.bool true) else none

/-- A concrete event trace: two submits while alive, the child answers
each, and the scheduled drain dispatches the second request. -/
def demoEvents : List Event :=
  [Event.submit "get_board_info" JVal.null DrainErr.ok,
   Event.submit "run_drc" JVal.null DrainErr.ok,
   Event.chunk "DONE",
   Event.runDrain DrainErr.ok,
   Event.chunk "DO",
   Event.chunk "NE"]

/-- A concrete event trace where the drain step runs with no child
process handle: two submits while alive, the child exits, the first
call's timer fires, and the scheduled drain dispatches the second
request against the null handle. -/
def deadDrainEvents : List Event :=
  [Event.submit "a" JVal.null DrainErr.ok,
   Event.submit "b" JVal.null DrainErr.ok,
   Event.exitEvt,
   Event.fire 0,
   Event.runDrain DrainErr.ok]

/-- Whether no settlement ever carries the spec's `ProcessCrashError`. -/
def NoCrash (s : BrokerState) : Prop :=
  ∀ p ∈ s.settled, p.2 ≠ Outcome.rejected Err.processCrash

/-- Settling a fresh promise appends its outcome. -/
theorem settle_fresh {s : BrokerState} {id : Nat} {o : Outcome}
    (hfresh : id ∉ settledIds s) :
    settle s id o = { s with settled := s.settled ++ [(id, o)] } := by
  unfold settle
  simp [hfresh]

/-- Any settlement after `settle` was there before or is the new one. -/
theorem settle_mem {s : BrokerState} {id : Nat} {o : Outcome} {p : Nat × Outcome}
    (hp : p ∈ (settle s id o).settled) : p ∈ s.settled ∨ p = (id, o) := by
  unfold settle at hp
  split at hp
  · exact Or.inl hp
  · simp only [List.mem_append, List.mem_singleton] at hp
    exact hp

/-- The timeout policy never yields zero. -/
theorem commandTimeout_ne_zero (c : String) : commandTimeout c ≠ 0 := by
  unfold commandTimeout
  split <;> simp

/-- A dispatching drain step, spelled out: head dequeued, broker busy,
buffer cleared, timer armed, handler stored, request written when the
child handle exists. -/
theorem processNext_dispatch {s : BrokerState} {req : Request} {rest : List Request}
    (hq : s.requestQueue = req :: rest) (hp : s.processingRequest = false) :
    processNextRequest DrainErr.ok s =
      { s with requestQueue := rest, processingRequest := true,
               responseBuffer := "",
               timers := s.timers ++
                 [({ id := s.nextTimerId, callId := req.callId, command := req.command,
                     duration := if req.timeout = 0 then 30000 else req.timeout } : Timer)],
               nextTimerId := s.nextTimerId + 1,
               currentRequestHandler := some ⟨req.callId, s.nextTimerId⟩,
               writes := if s.pythonProcess then s.writes ++ [req] else s.writes } := by
  cases s
  simp only at hq hp
  subst hq hp
  unfold processNextRequest
  simp only
  split <;> simp_all

/-- Claim C2: a `submit` call made when no child process handle exists
rejects the caller's promise synchronously with the process-not-running
error, never appends the request to the queue, writes nothing to the
child's input stream, and leaves the queue and the rest of the broker
state unchanged. -/
theorem submit_no_child_rejects (command : String) (params : JVal) (err : DrainErr)
    (s : BrokerState) (hdead : s.pythonProcess = false)
    (hfresh : s.nextCallId ∉ settledIds s) :
    (callKicadScript command params err s).settled =
      s.settled ++ [(s.nextCallId, Outcome.rejected Err.processNotRunning)] ∧
    (callKicadScript command params err s).requestQueue = s.requestQueue ∧
    (callKicadScript command params err s).writes = s.writes ∧
    (callKicadScript command params err s).responseBuffer = s.responseBuffer ∧
    (callKicadScript command params err s).currentRequestHandler = s.currentRequestHandler ∧
    (callKicadScript command params err s).processingRequest = s.processingRequest ∧
    (callKicadScript command params err s).timers = s.timers ∧
    (callKicadScript command params err s).drainsScheduled = s.drainsScheduled := by
  obtain ⟨pp, q, pr, buf, h, tm, w, st, nid, ntid, ds, k⟩ := s
  dsimp only at hdead hfresh ⊢
  subst hdead
  simp only [settledIds] at hfresh
  simp [callKicadScript, settle, settledIds, hfresh]

/-- Witness for C2 at a concrete dead-broker state. -/
theorem submit_no_child_rejects_witness :
    (callKicadScript "get_board_info" JVal.null DrainErr.ok (initState false)).settled =
      [(0, Outcome.rejected Err.processNotRunning)] ∧
    (callKicadScript "get_board_info" JVal.null DrainErr.ok (initState false)).requestQueue = [] ∧
    (callKicadScript "get_board_info" JVal.null DrainErr.ok (initState false)).writes = [] := by
  have h := submit_no_child_rejects "get_board_info" JVal.null DrainErr.ok
    (initState false) rfl (by simp [initState, settledIds])
  exact ⟨by simpa [initState] using h.1, h.2.1, h.2.2.1⟩

/-- Claim C3: the timeout armed for a request is a pure function of the
command string: 600000 ms for the fixed long-running set, 30000 ms for
every other command; submitting on an idle broker with a live child arms
the per-call timer with exactly that duration. -/
theorem timeout_policy_armed (c : String) (p : JVal) (s : BrokerState)
    (halive : s.pythonProcess = true) (hidle : s.processingRequest = false)
    (hq : s.requestQueue = []) :
    (callKicadScript c p DrainErr.ok s).timers.getLast? =
      some ({ id := s.nextTimerId, callId := s.nextCallId, command := c,
              duration := commandTimeout c } : Timer) ∧
    (commandTimeout c = 600000 ∨ commandTimeout c = 30000) ∧
    (c ∈ longRunningCommands → commandTimeout c = 600000) ∧
    (c ∉ longRunningCommands → commandTimeout c = 30000) ∧
    commandTimeout "run_drc" = 600000 ∧
    commandTimeout "get_board_info" = 30000 := by
  refine ⟨?_, ?_, ?_, ?_, by decide, by decide⟩
  · obtain ⟨pp, q, pr, buf, h, tm, w, st, nid, ntid, ds, k⟩ := s
    dsimp only at halive hidle hq ⊢
    subst halive hidle hq
    have hz : ¬ commandTimeout c = 0 := commandTimeout_ne_zero c
    simp [callKicadScript, processNextRequest, hz]
  · unfold commandTimeout; split <;> simp
  · intro hmem; simp [commandTimeout, hmem]
  · intro hmem; simp [commandTimeout, hmem]

/-- Witness for C3 at the initial live state with the two commands the
spec singles out. -/
theorem timeout_policy_armed_witness :
    (callKicadScript "run_drc" JVal.null DrainErr.ok (initState true)).timers.getLast? =
      some ({ id := 0, callId := 0, command := "run_drc", duration := 600000 } : Timer) ∧
    (callKicadScript "get_board_info" JVal.null DrainErr.ok (initState true)).timers.getLast? =
      some ({ id := 0, callId := 0, command := "get_board_info", duration := 30000 } : Timer) := by
  have h1 := timeout_policy_armed "run_drc" JVal.null (initState true) rfl rfl rfl
  have h2 := timeout_policy_armed "get_board_info" JVal.null (initState true) rfl rfl rfl
  refine ⟨?_, ?_⟩
  · have := h1.1
    simpa [initState, h1.2.2.2.2.1] using this
  · have := h2.1
    rw [h2.2.2.2.2.2] at this
    simpa [initState] using this

/-- Claim C8: `stop` kills the child process when one exists and nulls
the handle, and changes nothing else: no pending call is settled, and
the queue, response buffer, busy flag, pending-call slot and timers are
left untouched. -/
theorem stop_only_kills_child (s : BrokerState) :
    (stopServer s).pythonProcess = false ∧
    (stopServer s).kills = (if s.pythonProcess then s.kills + 1 else s.kills) ∧
    (stopServer s).settled = s.settled ∧
    (stopServer s).requestQueue = s.requestQueue ∧
    (stopServer s).responseBuffer = s.responseBuffer ∧
    (stopServer s).processingRequest = s.processingRequest ∧
    (stopServer s).currentRequestHandler = s.currentRequestHandler ∧
    (stopServer s).timers = s.timers ∧
    (stopServer s).writes = s.writes ∧
    (stopServer s).drainsScheduled = s.drainsScheduled := by
  unfold stopServer
  split <;> simp_all

/-- Claim C10: a stdout chunk arriving while no pending call exists
settles no promise and changes no request state; the accumulated buffer
is discarded when it holds non-whitespace, otherwise kept. -/
theorem stray_output_discarded (parse : String → Option JVal) (data : String)
    (s : BrokerState) (hh : s.currentRequestHandler = none) :
    (handlePythonResponse parse data s).settled = s.settled ∧
    (handlePythonResponse parse data s).requestQueue = s.requestQueue ∧
    (handlePythonResponse parse data s).currentRequestHandler = none ∧
    (handlePythonResponse parse data s).processingRequest = s.processingRequest ∧
    (handlePythonResponse parse data s).writes = s.writes ∧
    (handlePythonResponse parse data s).timers = s.timers ∧
    (handlePythonResponse parse data s).drainsScheduled = s.drainsScheduled ∧
    (handlePythonResponse parse data s).responseBuffer =
      (if jsTrim (s.responseBuffer ++ data) = "" then s.responseBuffer ++ data else "") := by
  obtain ⟨pp, q, pr, buf, h, tm, w, st, nid, ntid, ds, k⟩ := s
  dsimp only at hh ⊢
  subst hh
  unfold handlePythonResponse tryParseResponse
  dsimp only
  split <;> simp_all

/-- Witness for C10: stray non-whitespace output with no pending call is
dropped and settles nothing. -/
theorem stray_output_discarded_witness :
    (handlePythonResponse parseDemo "stray" (initState true)).settled = [] ∧
    (handlePythonResponse parseDemo "stray" (initState true)).responseBuffer = "" := by
  have h := stray_output_discarded parseDemo "stray" (initState true) rfl
  refine ⟨by simpa [initState] using h.1, ?_⟩
  have hb := h.2.2.2.2.2.2.2
  have ht : jsTrim "stray" ≠ "" := by decide
  simpa [initState, ht] using hb

/-- What the timeout callback does when an armed timer fires. -/
theorem fireTimer_spec {s : BrokerState} {tid : Nat} {t : Timer}
    (ht : findTimer s tid = some t) (hfresh : t.callId ∉ settledIds s) :
    fireTimer tid s =
      { s with timers := s.timers.filter (fun u => u.id != tid),
               responseBuffer := "", currentRequestHandler := none,
               processingRequest := false,
               drainsScheduled := s.drainsScheduled + 1,
               settled := s.settled ++
                 [(t.callId, Outcome.rejected (Err.commandTimeout t.command t.duration))] } := by
  unfold fireTimer
  rw [ht]
  dsimp only
  rw [settle_fresh (by simpa [settledIds] using hfresh)]

/-- Claim C5: when the per-call deadline timer fires, the pending call
is rejected with the command-timeout error, the response buffer and the
pending-call slot are cleared, the broker returns to idle, and a freshly
scheduled drain dispatches the next queued request to the child. -/
theorem timeout_fire_resumes (parse : String → Option JVal) (s : BrokerState)
    (h : Handler) (t : Timer)
    (hh : s.currentRequestHandler = some h)
    (ht : findTimer s h.timerId = some t)
    (hfresh : t.callId ∉ settledIds s) :
    (fireTimer h.timerId s).settled =
      s.settled ++ [(t.callId, Outcome.rejected (Err.commandTimeout t.command t.duration))] ∧
    (fireTimer h.timerId s).responseBuffer = "" ∧
    (fireTimer h.timerId s).currentRequestHandler = none ∧
    (fireTimer h.timerId s).processingRequest = false ∧
    (fireTimer h.timerId s).drainsScheduled = s.drainsScheduled + 1 ∧
    (∀ req rest, s.requestQueue = req :: rest → s.pythonProcess = true →
      (step parse (Event.runDrain DrainErr.ok) (fireTimer h.timerId s)).writes =
        s.writes ++ [req] ∧
      (step parse (Event.runDrain DrainErr.ok) (fireTimer h.timerId s)).currentRequestHandler =
        some ⟨req.callId, s.nextTimerId⟩ ∧
      (step parse (Event.runDrain DrainErr.ok) (fireTimer h.timerId s)).processingRequest = true) := by
  rw [fireTimer_spec ht hfresh]
  refine ⟨rfl, rfl, rfl, rfl, rfl, ?_⟩
  intro req rest hq halive
  have hdisp := @processNext_dispatch
    { s with timers := s.timers.filter (fun u => u.id != h.timerId),
             responseBuffer := "", currentRequestHandler := none,
             processingRequest := false,
             drainsScheduled := s.drainsScheduled,
             settled := s.settled ++
               [(t.callId, Outcome.rejected (Err.commandTimeout t.command t.duration))] }
    req rest (by simpa using hq) rfl
  simp only [step]
  rw [hdisp]
  simp [halive]

/-- Witness for C5: two submits, then the first call's timer fires; the
first caller is rejected with the command timeout and the scheduled
drain writes the second request. -/
theorem timeout_fire_resumes_witness :
    (fireTimer (0 : Nat)
        (run parseDemo [Event.submit "a" JVal.null DrainErr.ok,
                        Event.submit "b" JVal.null DrainErr.ok] (initState true))).settled =
      [(0, Outcome.rejected (Err.commandTimeout "a" 30000))] ∧
    (step parseDemo (Event.runDrain DrainErr.ok)
        (fireTimer (0 : Nat)
          (run parseDemo [Event.submit "a" JVal.null DrainErr.ok,
                          Event.submit "b" JVal.null DrainErr.ok] (initState true)))).writes =
      [({ command := "a", params := JVal.null, timeout := 30000, callId := 0 } : Request),
       ({ command := "b", params := JVal.null, timeout := 30000, callId := 1 } : Request)] := by
  have h := timeout_fire_resumes parseDemo
    (run parseDemo [Event.submit "a" JVal.null DrainErr.ok,
                    Event.submit "b" JVal.null DrainErr.ok] (initState true))
    ⟨0, 0⟩ ⟨0, 0, "a", 30000⟩ rfl rfl (by decide)
  refine ⟨by simpa using h.1, ?_⟩
  have h6 := h.2.2.2.2.2
    ({ command := "b", params := JVal.null, timeout := 30000, callId := 1 } : Request)
    [] rfl rfl
  simpa using h6.1

/-- After `clearTimeout`, the timer is no longer armed. -/
theorem findTimer_clearTimer (s : BrokerState) (tid : Nat) :
    findTimer (clearTimer s tid) tid = none := by
  unfold findTimer clearTimer
  dsimp only
  rw [List.find?_filter]
  rw [List.find?_eq_none]
  intro t _
  simp

/-- What `tryParseResponse` does when the whole buffer parses while a
call is pending. -/
theorem tryParse_success_spec {parse : String → Option JVal} {s : BrokerState}
    {h : Handler} {v : JVal}
    (hh : s.currentRequestHandler = some h)
    (hp : parse s.responseBuffer = some v)
    (hfresh : h.callId ∉ settledIds s) :
    tryParseResponse parse s =
      { s with timers := s.timers.filter (fun u => u.id != h.timerId),
               responseBuffer := "", currentRequestHandler := none,
               processingRequest := false,
               settled := s.settled ++ [(h.callId, Outcome.resolved v)],
               drainsScheduled := s.drainsScheduled + 1 } := by
  unfold tryParseResponse
  rw [hh]
  dsimp only
  rw [hp]
  dsimp only [clearTimer]
  rw [settle_fresh (by simpa [settledIds] using hfresh)]

/-- Filtering out a timer id leaves nothing for `find?` on that id. -/
theorem find_filter_ne (l : List Timer) (tid : Nat) :
    (l.filter (fun u => u.id != tid)).find? (fun t => t.id == tid) = none := by
  rw [List.find?_filter, List.find?_eq_none]
  intro t _
  simp

/-- The write-error drain path: the dequeued request is rejected, the
pending-call slot cleared, the broker idle again and a drain scheduled —
but the timer armed moments earlier stays armed. -/
theorem processNext_atWrite_spec {s : BrokerState} {req : Request} {rest : List Request}
    (hq : s.requestQueue = req :: rest) (hp : s.processingRequest = false)
    (hfresh : req.callId ∉ settledIds s) :
    processNextRequest DrainErr.atWrite s =
      { s with requestQueue := rest,
               responseBuffer := "",
               timers := s.timers ++
                 [({ id := s.nextTimerId, callId := req.callId, command := req.command,
                     duration := if req.timeout = 0 then 30000 else req.timeout } : Timer)],
               nextTimerId := s.nextTimerId + 1,
               processingRequest := false,
               currentRequestHandler := none,
               drainsScheduled := s.drainsScheduled + 1,
               settled := s.settled ++ [(req.callId, Outcome.rejected Err.writeError)] } := by
  obtain ⟨pp, q, pr, buf, h, tm, w, st, nid, ntid, ds, k⟩ := s
  dsimp only at hq hp ⊢
  subst hq hp
  simp only [settledIds] at hfresh
  simp [processNextRequest, settle, settledIds, hfresh]

/-- Counterexample to claim C6 as stated: a submit whose drain step
throws at the stdin write completes (rejects) the caller's future, yet
the deadline timer armed for that request is not disarmed: it is still
armed after the pending call is gone. -/
theorem completion_timer_not_disarmed_cex :
    (callKicadScript "a" JVal.null DrainErr.atWrite (initState true)).settled =
      [(0, Outcome.rejected Err.writeError)] ∧
    (callKicadScript "a" JVal.null DrainErr.atWrite (initState true)).currentRequestHandler =
      none ∧
    (callKicadScript "a" JVal.null DrainErr.atWrite (initState true)).processingRequest =
      false ∧
    findTimer (callKicadScript "a" JVal.null DrainErr.atWrite (initState true)) 0 =
      some ({ id := 0, callId := 0, command := "a", duration := 30000 } : Timer) :=
  ⟨rfl, rfl, rfl, rfl⟩

/-- Claim C6 as amended: on assembler parse success and on timeout fire
the completion actions happen exactly once — timer disarmed, buffer
cleared, pending call cleared, future settled, broker idle, drain
scheduled for a fresh turn.  On a write/process error in the drain step
the future is rejected, the pending-call slot is cleared, the broker
returns to idle and a drain is scheduled, but the deadline timer just
armed for the request is not disarmed. -/
theorem completion_paths_amended (parse : String → Option JVal)
    (a : BrokerState) (ha : Handler) (v : JVal)
    (hah : a.currentRequestHandler = some ha)
    (hap : parse a.responseBuffer = some v)
    (haf : ha.callId ∉ settledIds a)
    (b : BrokerState) (tb : Timer)
    (hbt : findTimer b tb.id = some tb)
    (hbf : tb.callId ∉ settledIds b)
    (c : BrokerState) (req : Request) (rest : List Request)
    (hcq : c.requestQueue = req :: rest)
    (hcp : c.processingRequest = false)
    (hcf : req.callId ∉ settledIds c)
    (hcid : (c.timers.find? (fun t => t.id == c.nextTimerId)) = none) :
    ((tryParseResponse parse a).settled = a.settled ++ [(ha.callId, Outcome.resolved v)] ∧
     findTimer (tryParseResponse parse a) ha.timerId = none ∧
     (tryParseResponse parse a).responseBuffer = "" ∧
     (tryParseResponse parse a).currentRequestHandler = none ∧
     (tryParseResponse parse a).processingRequest = false ∧
     (tryParseResponse parse a).drainsScheduled = a.drainsScheduled + 1) ∧
    ((fireTimer tb.id b).settled =
       b.settled ++ [(tb.callId, Outcome.rejected (Err.commandTimeout tb.command tb.duration))] ∧
     findTimer (fireTimer tb.id b) tb.id = none ∧
     (fireTimer tb.id b).responseBuffer = "" ∧
     (fireTimer tb.id b).currentRequestHandler = none ∧
     (fireTimer tb.id b).processingRequest = false ∧
     (fireTimer tb.id b).drainsScheduled = b.drainsScheduled + 1) ∧
    ((processNextRequest DrainErr.atWrite c).settled =
       c.settled ++ [(req.callId, Outcome.rejected Err.writeError)] ∧
     (processNextRequest DrainErr.atWrite c).currentRequestHandler = none ∧
     (processNextRequest DrainErr.atWrite c).processingRequest = false ∧
     (processNextRequest DrainErr.atWrite c).drainsScheduled = c.drainsScheduled + 1 ∧
     findTimer (processNextRequest DrainErr.atWrite c) c.nextTimerId =
       some ({ id := c.nextTimerId, callId := req.callId, command := req.command,
               duration := if req.timeout = 0 then 30000 else req.timeout } : Timer)) := by
  refine ⟨?_, ?_, ?_⟩
  · rw [tryParse_success_spec hah hap haf]
    refine ⟨rfl, ?_, rfl, rfl, rfl, rfl⟩
    simpa [findTimer] using find_filter_ne a.timers ha.timerId
  · rw [fireTimer_spec hbt hbf]
    refine ⟨rfl, ?_, rfl, rfl, rfl, rfl⟩
    simpa [findTimer] using find_filter_ne b.timers tb.id
  · rw [processNext_atWrite_spec hcq hcp hcf]
    refine ⟨rfl, rfl, rfl, rfl, ?_⟩
    simp only [findTimer]
    rw [List.find?_append, hcid]
    simp

/-- Witness for the amended C6 at concrete states for each of the three
completion paths. -/
theorem completion_paths_amended_witness :
    (tryParseResponse parseDemo
        { initState true with processingRequest := true, responseBuffer := "DONE",
                              currentRequestHandler := some ⟨0, 0⟩,
                              timers := [⟨0, 0, "a", 30000⟩] }).settled =
      [(0, Outcome.resolved (JVal.bool true))] ∧
    findTimer (tryParseResponse parseDemo
        { initState true with processingRequest := true, responseBuffer := "DONE",
                              currentRequestHandler := some ⟨0, 0⟩,
                              timers := [⟨0, 0, "a", 30000⟩] }) 0 = none ∧
    (fireTimer 0
        { initState true with processingRequest := true,
                              currentRequestHandler := some ⟨0, 0⟩,
                              timers := [⟨0, 0, "a", 30000⟩] }).settled =
      [(0, Outcome.rejected (Err.commandTimeout "a" 30000))] ∧
    findTimer (fireTimer 0
        { initState true with processingRequest := true,
                              currentRequestHandler := some ⟨0, 0⟩,
                              timers := [⟨0, 0, "a", 30000⟩] }) 0 = none ∧
    (processNextRequest DrainErr.atWrite
        { initState true with
            requestQueue := [({ command := "a", params := JVal.null, timeout := 30000,
                                callId := 0 } : Request)] }).settled =
      [(0, Outcome.rejected Err.writeError)] ∧
    findTimer (processNextRequest DrainErr.atWrite
        { initState true with
            requestQueue := [({ command := "a", params := JVal.null, timeout := 30000,
                                callId := 0 } : Request)] }) 0 =
      some ({ id := 0, callId := 0, command := "a", duration := 30000 } : Timer) := by
  have h := completion_paths_amended parseDemo
    { initState true with processingRequest := true, responseBuffer := "DONE",
                          currentRequestHandler := some ⟨0, 0⟩,
                          timers := [⟨0, 0, "a", 30000⟩] }
    ⟨0, 0⟩ (JVal.bool true) rfl rfl (by decide)
    { initState true with processingRequest := true,
                          currentRequestHandler := some ⟨0, 0⟩,
                          timers := [⟨0, 0, "a", 30000⟩] }
    ⟨0, 0, "a", 30000⟩ rfl (by decide)
    { initState true with
        requestQueue := [({ command := "a", params := JVal.null, timeout := 30000,
                            callId := 0 } : Request)] }
    ({ command := "a", params := JVal.null, timeout := 30000, callId := 0 } : Request)
    [] rfl rfl (by decide) rfl
  obtain ⟨h1, h2, h3⟩ := h
  exact ⟨by simpa using h1.1, by simpa using h1.2.1,
         by simpa using h2.1, by simpa using h2.2.1,
         by simpa using h3.1, by simpa using h3.2.2.2.2⟩

/-- Counterexample to claim C9 as stated: in the concrete trace
`deadDrainEvents` the drain step runs after the child exited; the
dequeued request is not written, no write/process error surfaces, and
the pending call is left pending (only the earlier timeout settlement
exists) instead of being rejected. -/
theorem drain_write_silent_cex :
    (run parseDemo deadDrainEvents (initState true)).pythonProcess = false ∧
    (run parseDemo deadDrainEvents (initState true)).writes =
      [({ command := "a", params := JVal.null, timeout := 30000, callId := 0 } : Request)] ∧
    (run parseDemo deadDrainEvents (initState true)).currentRequestHandler =
      some ⟨1, 1⟩ ∧
    (run parseDemo deadDrainEvents (initState true)).settled =
      [(0, Outcome.rejected (Err.commandTimeout "a" 30000))] :=
  ⟨rfl, rfl, rfl, rfl⟩

/-- Claim C9 as amended: when the drain step dequeues a request and no
child process handle exists, the optional-chaining write silently does
nothing — no error surfaces, nothing is written, nothing is settled, and
the pending call is created as usual with its deadline timer armed, so
it stays pending until the timer fires. -/
theorem drain_write_silent_amended (s : BrokerState) (req : Request) (rest : List Request)
    (hq : s.requestQueue = req :: rest) (hp : s.processingRequest = false)
    (hdead : s.pythonProcess = false) :
    (processNextRequest DrainErr.ok s).writes = s.writes ∧
    (processNextRequest DrainErr.ok s).settled = s.settled ∧
    (processNextRequest DrainErr.ok s).currentRequestHandler =
      some ⟨req.callId, s.nextTimerId⟩ ∧
    (processNextRequest DrainErr.ok s).processingRequest = true ∧
    (processNextRequest DrainErr.ok s).timers =
      s.timers ++ [({ id := s.nextTimerId, callId := req.callId, command := req.command,
                      duration := if req.timeout = 0 then 30000 else req.timeout } : Timer)] := by
  rw [processNext_dispatch hq hp]
  exact ⟨by simp [hdead], rfl, rfl, rfl, rfl⟩

/-- Witness for the amended C9 at a concrete dead-broker state with one
queued request. -/
theorem drain_write_silent_amended_witness :
    (processNextRequest DrainErr.ok
        { initState false with
            requestQueue := [({ command := "a", params := JVal.null, timeout := 30000,
                                callId := 0 } : Request)] }).writes = [] ∧
    (processNextRequest DrainErr.ok
        { initState false with
            requestQueue := [({ command := "a", params := JVal.null, timeout := 30000,
                                callId := 0 } : Request)] }).settled = [] ∧
    (processNextRequest DrainErr.ok
        { initState false with
            requestQueue := [({ command := "a", params := JVal.null, timeout := 30000,
                                callId := 0 } : Request)] }).currentRequestHandler =
      some ⟨0, 0⟩ := by
  have h := drain_write_silent_amended
    { initState false with
        requestQueue := [({ command := "a", params := JVal.null, timeout := 30000,
                            callId := 0 } : Request)] }
    ({ command := "a", params := JVal.null, timeout := 30000, callId := 0 } : Request)
    [] rfl rfl rfl
  exact ⟨by simpa using h.1, by simpa using h.2.1, by simpa using h.2.2.1⟩

/-- The drain step never rejects with the spec's crash error. -/
theorem noCrash_processNext (err : DrainErr) (s : BrokerState) (h : NoCrash s) :
    NoCrash (processNextRequest err s) := by
  unfold processNextRequest
  split
  · exact h
  · exact h
  · rename_i req rest hpr
    cases err
    · dsimp only
      split
      · intro p hp; exact h p hp
      · intro p hp; exact h p hp
    · intro p hp
      rcases settle_mem hp with h1 | h1
      · exact h p h1
      · subst h1; simp
    · intro p hp
      rcases settle_mem hp with h1 | h1
      · exact h p h1
      · subst h1; simp

/-- `submit` never rejects with the spec's crash error. -/
theorem noCrash_callKicad (c : String) (p : JVal) (err : DrainErr) (s : BrokerState)
    (h : NoCrash s) : NoCrash (callKicadScript c p err s) := by
  unfold callKicadScript
  dsimp only
  split
  · intro q hq
    rcases settle_mem hq with h1 | h1
    · exact h q h1
    · subst h1; simp
  · split
    · intro q hq; exact h q hq
    · exact noCrash_processNext err _ (fun q hq => h q hq)

/-- The response assembler never rejects at all, in particular never
with the spec's crash error. -/
theorem noCrash_tryParse (parse : String → Option JVal) (s : BrokerState)
    (h : NoCrash s) : NoCrash (tryParseResponse parse s) := by
  unfold tryParseResponse
  split
  · split
    · intro q hq; exact h q hq
    · exact h
  · split
    · exact h
    · intro q hq
      rcases settle_mem hq with h1 | h1
      · exact h q h1
      · subst h1; simp

/-- The timeout callback rejects with the command-timeout error, never
with the spec's crash error. -/
theorem noCrash_fireTimer (tid : Nat) (s : BrokerState) (h : NoCrash s) :
    NoCrash (fireTimer tid s) := by
  unfold fireTimer
  split
  · exact h
  · intro q hq
    rcases settle_mem hq with h1 | h1
    · exact h q h1
    · subst h1; simp

/-- No event-loop step ever produces a crash rejection. -/
theorem noCrash_step (parse : String → Option JVal) (e : Event) (s : BrokerState)
    (h : NoCrash s) : NoCrash (step parse e s) := by
  cases e with
  | submit c p err => exact noCrash_callKicad c p err s h
  | chunk d =>
    exact noCrash_tryParse parse { s with responseBuffer := s.responseBuffer ++ d }
      (fun q hq => h q hq)
  | fire tid => exact noCrash_fireTimer tid s h
  | runDrain err =>
    show NoCrash (match s.drainsScheduled with
      | 0 => s
      | n + 1 => processNextRequest err { s with drainsScheduled := n })
    cases s.drainsScheduled with
    | zero => exact h
    | succ n =>
      exact noCrash_processNext err { s with drainsScheduled := n } (fun q hq => h q hq)
  | exitEvt => exact fun q hq => h q hq
  | stopEvt =>
    show NoCrash (stopServer s)
    unfold stopServer
    split
    · exact fun q hq => h q hq
    · exact h

/-- No run of the event loop ever produces a crash rejection. -/
theorem noCrash_run (parse : String → Option JVal) (es : List Event) (s : BrokerState)
    (h : NoCrash s) : NoCrash (run parse es s) := by
  induction es generalizing s with
  | nil => exact h
  | cons e es ih => exact ih (step parse e s) (noCrash_step parse e s h)

/-- Claim C7: the child's exit event is not handled by the broker: it
only nulls the process handle, settling no future and leaving the
pending call, the queue, the buffer, the busy flag and the timers
untouched; and no run of the broker ever rejects any call with the
spec's `ProcessCrashError`. -/
theorem exit_not_handled (parse : String → Option JVal) (s : BrokerState)
    (es : List Event) (alive : Bool) :
    (onExit s).pythonProcess = false ∧
    (onExit s).settled = s.settled ∧
    (onExit s).currentRequestHandler = s.currentRequestHandler ∧
    (onExit s).requestQueue = s.requestQueue ∧
    (onExit s).responseBuffer = s.responseBuffer ∧
    (onExit s).processingRequest = s.processingRequest ∧
    (onExit s).timers = s.timers ∧
    (onExit s).writes = s.writes ∧
    (onExit s).drainsScheduled = s.drainsScheduled ∧
    (∀ p ∈ (run parse es (initState alive)).settled,
      p.2 ≠ Outcome.rejected Err.processCrash) := by
  refine ⟨rfl, rfl, rfl, rfl, rfl, rfl, rfl, rfl, rfl, ?_⟩
  exact noCrash_run parse es (initState alive) (by intro p hp; simp [initState] at hp)

/-- Witness for C7: the exit event in `deadDrainEvents` leaves the
pending call and the queued request alone, and that run's settlements
hold no crash rejection. -/
theorem exit_not_handled_witness :
    (onExit (run parseDemo [Event.submit "a" JVal.null DrainErr.ok,
                            Event.submit "b" JVal.null DrainErr.ok]
              (initState true))).settled = [] ∧
    (onExit (run parseDemo [Event.submit "a" JVal.null DrainErr.ok,
                            Event.submit "b" JVal.null DrainErr.ok]
              (initState true))).currentRequestHandler = some ⟨0, 0⟩ ∧
    (∀ p ∈ (run parseDemo deadDrainEvents (initState true)).settled,
      p.2 ≠ Outcome.rejected Err.processCrash) := by
  have h := exit_not_handled parseDemo
    (run parseDemo [Event.submit "a" JVal.null DrainErr.ok,
                    Event.submit "b" JVal.null DrainErr.ok] (initState true))
    deadDrainEvents true
  exact ⟨by simpa using h.2.1, by simpa using h.2.2.1, h.2.2.2.2.2.2.2.2.2⟩

/-- Unfolding one event of a run. -/
theorem run_cons (parse : String → Option JVal) (e : Event) (es : List Event)
    (s : BrokerState) : run parse (e :: es) s = run parse es (step parse e s) := rfl

/-- A chunk whose accumulated buffer does not yet parse only extends the
buffer. -/
theorem chunk_step_fail {parse : String → Option JVal} {s : BrokerState} {h : Handler}
    {d : String} (hh : s.currentRequestHandler = some h)
    (hp : parse (s.responseBuffer ++ d) = none) :
    step parse (Event.chunk d) s = { s with responseBuffer := s.responseBuffer ++ d } := by
  show tryParseResponse parse { s with responseBuffer := s.responseBuffer ++ d } = _
  unfold tryParseResponse
  dsimp only
  rw [hh]
  dsimp only
  rw [hp]

/-- While every accumulated buffer fails to parse, delivering chunks
only appends them to the buffer. -/
theorem chunks_accumulate (parse : String → Option JVal) (cs : List String) :
    ∀ (s : BrokerState) (h : Handler),
    s.currentRequestHandler = some h →
    (∀ k, k < cs.length → parse (s.responseBuffer ++ strJoin (cs.take (k + 1))) = none) →
    run parse (cs.map Event.chunk) s =
      { s with responseBuffer := s.responseBuffer ++ strJoin cs } := by
  induction cs with
  | nil =>
    intro s h hh hf
    simp [run, strJoin, String.append_empty]
  | cons c cs ih =>
    intro s h hh hf
    have h0 : parse (s.responseBuffer ++ c) = none := by
      have := hf 0 (by simp)
      simpa [strJoin, String.append_empty] using this
    have hstep := chunk_step_fail (d := c) hh h0
    rw [List.map_cons, run_cons, hstep]
    have hf' : ∀ k, k < cs.length →
        parse ((s.responseBuffer ++ c) ++ strJoin (cs.take (k + 1))) = none := by
      intro k hk
      have := hf (k + 1) (by simpa using Nat.succ_lt_succ hk)
      simpa [strJoin, String.append_assoc, List.take_succ_cons] using this
    have := ih { s with responseBuffer := s.responseBuffer ++ c } h hh hf'
    rw [this]
    simp [strJoin, String.append_assoc]

/-- When every strict prefix of the chunk sequence fails to parse and
the full concatenation parses, the pending call resolves exactly at the
last chunk. -/
theorem chunks_resolve (parse : String → Option JVal) (cs : List String) :
    ∀ (s : BrokerState) (h : Handler) (v : JVal),
    cs ≠ [] →
    s.currentRequestHandler = some h →
    h.callId ∉ settledIds s →
    (∀ k, 0 < k → k < cs.length → parse (s.responseBuffer ++ strJoin (cs.take k)) = none) →
    parse (s.responseBuffer ++ strJoin cs) = some v →
    run parse (cs.map Event.chunk) s =
      { s with timers := s.timers.filter (fun u => u.id != h.timerId),
               responseBuffer := "", currentRequestHandler := none,
               processingRequest := false,
               settled := s.settled ++ [(h.callId, Outcome.resolved v)],
               drainsScheduled := s.drainsScheduled + 1 } := by
  induction cs with
  | nil => intro s h v hne; exact absurd rfl hne
  | cons c cs ih =>
    intro s h v _ hh hfresh hpart hfull
    cases cs with
    | nil =>
      have hp : parse (s.responseBuffer ++ c) = some v := by
        simpa [strJoin, String.append_empty] using hfull
      have hspec := tryParse_success_spec
        (s := { s with responseBuffer := s.responseBuffer ++ c }) (h := h) (v := v)
        hh hp hfresh
      rw [List.map_cons, List.map_nil, run_cons]
      show run parse []
        (tryParseResponse parse { s with responseBuffer := s.responseBuffer ++ c }) = _
      rw [show run parse [] (tryParseResponse parse
            { s with responseBuffer := s.responseBuffer ++ c }) =
          tryParseResponse parse { s with responseBuffer := s.responseBuffer ++ c } from rfl]
      rw [hspec]
    | cons c2 cs2 =>
      have h0 : parse (s.responseBuffer ++ c) = none := by
        have := hpart 1 (by simp) (by simp)
        simpa [strJoin, String.append_empty] using this
      have hstep := chunk_step_fail (d := c) hh h0
      rw [List.map_cons, run_cons, hstep]
      have hpart' : ∀ k, 0 < k → k < (c2 :: cs2).length →
          parse ((s.responseBuffer ++ c) ++ strJoin ((c2 :: cs2).take k)) = none := by
        intro k hk0 hk
        have := hpart (k + 1) (by simp) (by simpa using Nat.succ_lt_succ hk)
        simpa [strJoin, String.append_assoc, List.take_succ_cons] using this
      have hfull' : parse ((s.responseBuffer ++ c) ++ strJoin (c2 :: cs2)) = some v := by
        simpa [strJoin, String.append_assoc] using hfull
      have := ih { s with responseBuffer := s.responseBuffer ++ c } h v
        (by simp) hh hfresh hpart' hfull'
      rw [this]

/-- Claim C4: for a response delivered as chunks where no strict prefix
of the concatenation parses, the pending call is not resolved after any
strict prefix of the chunks — the assembler just accumulates the buffer,
a failed parse of the whole buffer retaining it unchanged — and the call
resolves with the decoded value immediately after the final chunk. -/
theorem chunked_response_resolution (parse : String → Option JVal)
    (chunks : List String) (v : JVal) (s : BrokerState) (h : Handler)
    (hh : s.currentRequestHandler = some h)
    (hbuf : s.responseBuffer = "")
    (hne : chunks ≠ [])
    (hpart : ∀ k, k < chunks.length → parse (strJoin (chunks.take k)) = none)
    (hfull : parse (strJoin chunks) = some v)
    (hfresh : h.callId ∉ settledIds s) :
    (∀ k, k < chunks.length →
       (run parse ((chunks.take k).map Event.chunk) s).settled = s.settled ∧
       (run parse ((chunks.take k).map Event.chunk) s).currentRequestHandler = some h ∧
       (run parse ((chunks.take k).map Event.chunk) s).responseBuffer =
         strJoin (chunks.take k)) ∧
    (run parse (chunks.map Event.chunk) s).settled =
      s.settled ++ [(h.callId, Outcome.resolved v)] ∧
    (run parse (chunks.map Event.chunk) s).currentRequestHandler = none ∧
    (run parse (chunks.map Event.chunk) s).responseBuffer = "" ∧
    (run parse (chunks.map Event.chunk) s).processingRequest = false := by
  constructor
  · intro k hk
    have hacc := chunks_accumulate parse (chunks.take k) s h hh ?_
    · rw [hacc, hbuf]
      exact ⟨rfl, hh, by rw [String.empty_append]⟩
    · intro j hj
      rw [hbuf, String.empty_append]
      have hjk : j + 1 ≤ k := by
        have := (List.length_take k chunks ▸ hj)
        omega
      rw [List.take_take]
      have hmin : min (j + 1) k = j + 1 := by omega
      rw [hmin]
      exact hpart (j + 1) (by omega)
  · have hres := chunks_resolve parse chunks s h v hne hh hfresh ?_ ?_
    · rw [hres]
      exact ⟨rfl, rfl, rfl, rfl⟩
    · intro k hk0 hk
      rw [hbuf, String.empty_append]
      exact hpart k hk
    · rw [hbuf, String.empty_append]
      exact hfull

/-- Witness for C4: the response "DONE" delivered as three chunks
resolves the pending call only after the third chunk. -/
theorem chunked_response_resolution_witness :
    ((run parseDemo (([ "DO", "N" ] : List String).map Event.chunk)
        (callKicadScript "a" JVal.null DrainErr.ok (initState true))).settled = [] ∧
     (run parseDemo (([ "DO", "N" ] : List String).map Event.chunk)
        (callKicadScript "a" JVal.null DrainErr.ok (initState true))).currentRequestHandler =
       some ⟨0, 0⟩) ∧
    (run parseDemo (([ "DO", "N", "E" ] : List String).map Event.chunk)
        (callKicadScript "a" JVal.null DrainErr.ok (initState true))).settled =
      [(0, Outcome.resolved (JVal.bool true))] ∧
    (run parseDemo (([ "DO", "N", "E" ] : List String).map Event.chunk)
        (callKicadScript "a" JVal.null DrainErr.ok (initState true))).currentRequestHandler =
      none := by
  have h := chunked_response_resolution parseDemo ["DO", "N", "E"] (JVal.bool true)
    (callKicadScript "a" JVal.null DrainErr.ok (initState true)) ⟨0, 0⟩
    rfl rfl (by simp)
    (by intro k hk
        simp only [List.length_cons, List.length_nil] at hk
        interval_cases k <;> rfl)
    rfl (by decide)
  have h2 := h.1 2 (by simp)
  refine ⟨⟨?_, ?_⟩, by simpa using h.2.1, h.2.2.1⟩
  · have := h2.1
    simpa using this
  · have := h2.2.1
    simpa using this

/-- A non-throwing drain step preserves the nice-trace invariant. -/
theorem inv_processNext_ok {s : BrokerState} (hinv : NiceInv s) :
    NiceInv (processNextRequest DrainErr.ok s) := by
  obtain ⟨hpp, hbusy, hids, hout⟩ := hinv
  obtain ⟨pp, q, pr, buf, h, tm, w, st, nid, ntid, ds, k⟩ := s
  dsimp only at hpp hbusy hids hout ⊢
  subst hpp
  cases q with
  | nil =>
    refine ⟨rfl, hbusy, hids, hout⟩
  | cons req rest =>
    cases pr with
    | true =>
      exact ⟨rfl, hbusy, hids, hout⟩
    | false =>
      cases h with
      | some hd => simp [handlerIds] at hbusy
      | none =>
        refine ⟨rfl, by simp [processNextRequest, NiceInv, handlerIds], ?_, ?_⟩
        · simp only [settledIds, handlerIds, queueIds] at hids ⊢
          simp only [processNextRequest]
          simp only [List.nil_append, List.map_cons] at hids
          simpa using hids
        · simp only [processNextRequest]
          simpa using hout

/-- A submit while the child is alive preserves the nice-trace
invariant. -/
theorem inv_submit_ok {s : BrokerState} (c : String) (p : JVal) (hinv : NiceInv s) :
    NiceInv (callKicadScript c p DrainErr.ok s) := by
  obtain ⟨hpp, hbusy, hids, hout⟩ := hinv
  obtain ⟨pp, q, pr, buf, h, tm, w, st, nid, ntid, ds, k⟩ := s
  dsimp only at hpp hbusy hids hout ⊢
  subst hpp
  have hs1 : NiceInv
      { pythonProcess := true,
        requestQueue := q ++ [({ command := c, params := p, timeout := commandTimeout c,
                                 callId := nid } : Request)],
        processingRequest := pr, responseBuffer := buf, currentRequestHandler := h,
        timers := tm, writes := w, settled := st, nextCallId := nid + 1,
        nextTimerId := ntid, drainsScheduled := ds, kills := k } := by
    refine ⟨rfl, hbusy, ?_, hout⟩
    simp only [settledIds, handlerIds, queueIds, List.range_succ] at hids ⊢
    cases h with
    | none =>
      simp only [List.map_append, List.map_cons, List.map_nil, List.append_nil,
                 List.nil_append] at hids ⊢
      rw [← hids, List.append_assoc]
    | some hd =>
      simp only [List.map_append, List.map_cons, List.map_nil, List.append_nil] at hids ⊢
      rw [← hids]
      simp [List.append_assoc]
  cases pr with
  | true => exact hs1
  | false => exact inv_processNext_ok hs1

/-- A stdout chunk preserves the nice-trace invariant. -/
theorem inv_chunk {s : BrokerState} (parse : String → Option JVal) (d : String)
    (hinv : NiceInv s) : NiceInv (handlePythonResponse parse d s) := by
  obtain ⟨hpp, hbusy, hids, hout⟩ := hinv
  obtain ⟨pp, q, pr, buf, h, tm, w, st, nid, ntid, ds, k⟩ := s
  dsimp only at hpp hbusy hids hout ⊢
  subst hpp
  unfold handlePythonResponse tryParseResponse
  dsimp only
  cases h with
  | none =>
    unfold NiceInv
    by_cases hco : jsTrim (buf ++ d) ≠ ""
    · rw [if_pos hco]
      exact ⟨rfl, hbusy, hids, hout⟩
    · rw [if_neg hco]
      exact ⟨rfl, hbusy, hids, hout⟩
  | some hd =>
    simp only [settledIds, handlerIds, queueIds] at hids
    dsimp only
    cases hp : parse (buf ++ d) with
    | none => exact ⟨rfl, hbusy, hids, hout⟩
    | some v =>
      dsimp only [clearTimer]
      have hfresh : hd.callId ∉ List.map Prod.fst st := by
        have hnd : ((List.map Prod.fst st ++ [hd.callId]) ++
            List.map Request.callId q).Nodup := by
          rw [show (List.map Prod.fst st ++ [hd.callId]) ++ List.map Request.callId q =
              List.range nid from hids]
          exact List.nodup_range nid
        have hnd2 := List.Nodup.of_append_left hnd
        have hdisj := (List.nodup_append.mp hnd2).2.2
        intro hmem
        exact hdisj hmem (by simp)
      rw [settle_fresh (by simpa [settledIds] using hfresh)]
      refine ⟨rfl, by simp [handlerIds], ?_, ?_⟩
      · simp only [settledIds, handlerIds, queueIds, List.map_append, List.map_cons,
                   List.map_nil]
        simpa using hids
      · intro p hp2
        rcases List.mem_append.mp hp2 with hm | hm
        · exact hout p hm
        · rcases List.mem_singleton.mp hm with rfl
          exact ⟨v, rfl⟩

/-- Any nice event preserves the nice-trace invariant. -/
theorem inv_step_nice {s : BrokerState} (parse : String → Option JVal) (e : Event)
    (he : niceEvent e = true) (hinv : NiceInv s) : NiceInv (step parse e s) := by
  cases e with
  | submit c p err =>
    have herr : err = DrainErr.ok := by simpa [niceEvent] using he
    subst herr
    exact inv_submit_ok c p hinv
  | chunk d => exact inv_chunk parse d hinv
  | fire tid => simp [niceEvent] at he
  | runDrain err =>
    have herr : err = DrainErr.ok := by simpa [niceEvent] using he
    subst herr
    show NiceInv (match s.drainsScheduled with
      | 0 => s
      | n + 1 => processNextRequest DrainErr.ok { s with drainsScheduled := n })
    cases s.drainsScheduled with
    | zero => exact hinv
    | succ n =>
      refine inv_processNext_ok ⟨hinv.1, hinv.2.1, hinv.2.2.1, hinv.2.2.2⟩
  | exitEvt => simp [niceEvent] at he
  | stopEvt => simp [niceEvent] at he

/-- A nice trace preserves the invariant. -/
theorem inv_run_nice (parse : String → Option JVal) (es : List Event) :
    ∀ (s : BrokerState), (∀ e ∈ es, niceEvent e = true) → NiceInv s →
      NiceInv (run parse es s) := by
  induction es with
  | nil => intro s _ hinv; exact hinv
  | cons e es ih =>
    intro s hnice hinv
    rw [run_cons]
    exact ih (step parse e s) (fun e2 he2 => hnice e2 (List.mem_cons_of_mem e he2))
      (inv_step_nice parse e (hnice e (List.mem_cons_self e es)) hinv)

/-- Claim C1: along any trace of submits, chunks and scheduled drains
while the child stays alive and healthy, the settled call ids followed
by the in-flight call id followed by the queued call ids are exactly the
call ids in submission order; hence settlements are a prefix of the
submission order — callers' futures are resolved in exactly the order
the requests were submitted, with at most one request in flight — and
every settlement on such a trace is a resolution. -/
theorem broker_ordered_resolution (parse : String → Option JVal) (es : List Event)
    (hnice : ∀ e ∈ es, niceEvent e = true) :
    settledIds (run parse es (initState true)) ++
      handlerIds (run parse es (initState true)) ++
      queueIds (run parse es (initState true)) =
      List.range (run parse es (initState true)).nextCallId ∧
    settledIds (run parse es (initState true)) =
      (List.range (run parse es (initState true)).nextCallId).take
        (settledIds (run parse es (initState true))).length ∧
    (∀ p ∈ (run parse es (initState true)).settled, ∃ v, p.2 = Outcome.resolved v) := by
  have hinv : NiceInv (run parse es (initState true)) := by
    refine inv_run_nice parse es (initState true) hnice ?_
    exact ⟨rfl, by simp [initState, handlerIds], by simp [initState, settledIds,
      handlerIds, queueIds], by simp [initState]⟩
  obtain ⟨hpp, hbusy, hids, hout⟩ := hinv
  refine ⟨hids, ?_, hout⟩
  rw [List.append_assoc] at hids
  rw [← hids, List.take_left]

/-- Witness for C1 on the concrete trace `demoEvents`: both calls
resolve, in submission order. -/
theorem broker_ordered_resolution_witness :
    (∀ e ∈ demoEvents, niceEvent e = true) ∧
    settledIds (run parseDemo demoEvents (initState true)) =
      (List.range (run parseDemo demoEvents (initState true)).nextCallId).take
        (settledIds (run parseDemo demoEvents (initState true))).length ∧
    settledIds (run parseDemo demoEvents (initState true)) = [0, 1] :=
  ⟨by decide, (broker_ordered_resolution parseDemo demoEvents (by decide)).2.1, by decide⟩
